import Mathlib

/-!
Shallow embedding of the Isikompilo corpus backend (Django REST application).
The persistence layer is modelled as an explicit `Store` record holding the
rows of the relational tables declared in `corpus/models.py`; the service and
view functions of `corpus/services.py`, `corpus/views.py`,
`corpus/serializers.py` and `analytics/services.py` are translated into pure
state-passing functions over that store.  Dynamically-typed JSON payloads are
modelled by `JValue`, and Python runtime exceptions by `PyError`, so that the
fallible parts of the code return `Except PyError`.
Timestamps (`created_at`/`updated_at`) are not modelled: every claim under
study explicitly excludes them, and none of the embedded code reads them.
-/

/-- A JSON-like dynamic value, as handled by the Python bulk import/export
code (`request.data` and serializer output are nested dict/list/str/int/bool
structures). -/
inductive JValue where
  | jstr  : String → JValue
  | jint  : Int → JValue
  | jbool : Bool → JValue
  | jnull : JValue
  | jarr  : List JValue → JValue
  | jobj  : List (String × JValue) → JValue

/-- Python runtime exceptions that the embedded code can raise. -/
inductive PyError where
  | typeError : String → PyError
  | attributeError : String → PyError
  | keyError : String → PyError
deriving Repr, DecidableEq

/-- Row of the `cultural_entries` table (`CulturalEntry` in `corpus/models.py`).
The enum-valued columns (`part_of_speech`, `genre`) are kept as strings, as in
the database. -/
structure CulturalEntry where
  id : Nat
  isiZulu_text : String
  english_translation : String
  part_of_speech : String
  genre : String
  cultural_context : String
  source : String
  frequency : Int
  is_active : Bool
deriving Repr, DecidableEq

/-- Row of the `usage_examples` table (`UsageExample` in `corpus/models.py`). -/
structure UsageExample where
  id : Nat
  entry_id : Nat
  isiZulu_example : String
  english_example : String
deriving Repr, DecidableEq

/-- Row of the `additional_translations` table (`AdditionalTranslation` in
`corpus/models.py`). -/
structure AdditionalTranslation where
  id : Nat
  entry_id : Nat
  language : String
  translation : String
deriving Repr, DecidableEq

/-- Row of the `collocations` table (`Collocation` in `corpus/models.py`). -/
structure Collocation where
  id : Nat
  entry_id : Nat
  phrase : String
  frequency : Int
deriving Repr, DecidableEq

/-- Row of the `activity_logs` table (`ActivityLog` in `corpus/models.py`).
The user foreign key is modelled by an optional username. -/
structure ActivityLog where
  id : Nat
  user : Option String
  action : String
  description : String
  ip_address : Option String
deriving Repr, DecidableEq

/-- The relational store: one list of rows per table, plus a primary-key
counter shared by all tables (only freshness of ids matters). -/
structure Store where
  entries : List CulturalEntry
  examples : List UsageExample
  additional_translations : List AdditionalTranslation
  collocations : List Collocation
  logs : List ActivityLog
  nextId : Nat
deriving Repr, DecidableEq

def Store.empty : Store := ⟨[], [], [], [], [], 0⟩

/-! Python dictionary / dynamic-value primitives used by the code under
`corpus/services.py`. -/

/-- Lookup in a Python dict literal (association list), as `d.get(k, dflt)`
behaves once we know `d` is a dict. -/
def jobjGet (fields : List (String × JValue)) (k : String) (dflt : JValue) : JValue :=
  match fields.find? (fun p => p.1 == k) with
  | some p => p.2
  | none => dflt

/-- Key membership for a Python dict. -/
def jobjHasKey (fields : List (String × JValue)) (k : String) : Bool :=
  fields.any (fun p => p.1 == k)

/-- Python equality of a dynamic value against a string (used for `in` on
lists: a string compares equal only to an equal string). -/
def jvalEqStr (v : JValue) (k : String) : Bool :=
  match v with
  | .jstr t => t == k
  | _ => false

/-- Python substring test used for `k in s` when `s` is a string. -/
def strContains (hay needle : String) : Bool :=
  decide (List.IsInfix needle.toList hay.toList)

/-- Python `k in v` for a dynamic container `v`: key membership for dicts,
element membership for lists, substring for strings, `TypeError` otherwise. -/
def pyContainsKey (v : JValue) (k : String) : Except PyError Bool :=
  match v with
  | .jobj fields => .ok (jobjHasKey fields k)
  | .jarr xs => .ok (xs.any (fun x => jvalEqStr x k))
  | .jstr s => .ok (strContains s k)
  | _ => .error (.typeError "argument of type is not iterable")

/-- Python `v[k]` subscription: dict lookup (`KeyError` when absent),
`TypeError` on non-subscriptable values. -/
def pySubscript (v : JValue) (k : String) : Except PyError JValue :=
  match v with
  | .jobj fields =>
    match fields.find? (fun p => p.1 == k) with
    | some p => .ok p.2
    | none => .error (.keyError k)
  | _ => .error (.typeError "object is not subscriptable")

/-- Python `v.get(k, dflt)`: only dicts have a `get` attribute; any other
value raises `AttributeError`. -/
def pyGetDefault (v : JValue) (k : String) (dflt : JValue) : Except PyError JValue :=
  match v with
  | .jobj fields => .ok (jobjGet fields k dflt)
  | _ => .error (.attributeError "object has no attribute get")

/-- Python iteration `for x in v`: lists yield their elements, dicts their
keys, strings their characters; other values raise `TypeError`. -/
def pyIterate (v : JValue) : Except PyError (List JValue) :=
  match v with
  | .jarr xs => .ok xs
  | .jobj fields => .ok (fields.map (fun p => JValue.jstr p.1))
  | .jstr s => .ok (s.toList.map (fun c => JValue.jstr (String.mk [c])))
  | _ => .error (.typeError "object is not iterable")

/-- Python `v.items()`: only dicts have an `items` attribute; lists (the shape
the export endpoint produces for `additional_translations`) raise
`AttributeError`. -/
def pyItems (v : JValue) : Except PyError (List (String × JValue)) :=
  match v with
  | .jobj fields => .ok fields
  | _ => .error (.attributeError "object has no attribute items")

/-- Coercion of a dynamic value into text for storage in a text column.  All
claims under study only exercise string values here. -/
def jToText : JValue → String
  | .jstr s => s
  | .jint n => toString n
  | .jbool b => if b then "True" else "False"
  | .jnull => "None"
  | .jarr _ => ""
  | .jobj _ => ""

namespace ActivityLogService

/-- Embeds `ActivityLogService.log_activity` (`corpus/services.py` lines
130-143): appends one `ActivityLog` row.  The surrounding try/except swallows
persistence errors; no persistence-failure source is modelled, so the function
is total. -/
def log_activity (s : Store) (user : Option String) (action description : String)
    (ip_address : Option String) : Store :=
  { s with
    logs := s.logs ++ [⟨s.nextId, user, action, description, ip_address⟩],
    nextId := s.nextId + 1 }

end ActivityLogService

/-- Embeds `CulturalEntry.objects.create(...)` with the model's own field
names (`corpus/services.py` lines 87-94).  Django's `create` does not run the
field validators (`MinLengthValidator` from `corpus/models.py` only runs under
`full_clean`), so any strings are inserted as given; `frequency` takes the
model default 0 and `is_active` the model default true. -/
def createCulturalEntry (s : Store) (zul eng pos gen ctx src : String) :
    Store × CulturalEntry :=
  let e : CulturalEntry :=
    { id := s.nextId, isiZulu_text := zul, english_translation := eng,
      part_of_speech := pos, genre := gen, cultural_context := ctx,
      source := src, frequency := 0, is_active := true }
  ({ s with entries := s.entries ++ [e], nextId := s.nextId + 1 }, e)

/-- Embeds the calls `CulturalEntry.objects.create(entry=..., ...)` at
`corpus/services.py` lines 98-102 and 106-110: the keyword arguments
(`entry`, `isiZulu_example`, `english_example`, resp. `language`,
`translation`) name no field of `CulturalEntry` (`corpus/models.py` lines
13-88), and a Django model constructor raises `TypeError` for keyword
arguments that do not correspond to a model field.  The call therefore always
raises, whatever the argument values. -/
def createCulturalEntryUnexpectedKwargs (kwargs : String) :
    Except PyError (Store × CulturalEntry) :=
  .error (.typeError ("CulturalEntry got unexpected keyword arguments: " ++ kwargs))

namespace DataImportService

/-- Embeds the loop `for example_data in entry_data.get('examples', [])` at
`corpus/services.py` lines 97-102.  The two `.get` calls on the element are
evaluated first (raising `AttributeError` on a non-dict element), then the
`CulturalEntry.objects.create` call with child-model keyword arguments raises
`TypeError`.  Hence the loop succeeds only on an empty iterable. -/
def processExamples (s : Store) : List JValue → Except PyError Store
  | [] => .ok s
  | example_data :: rest => do
    let _zul ← pyGetDefault example_data "isizulu" (.jstr "")
    let _eng ← pyGetDefault example_data "english" (.jstr "")
    let (s1, _e) ← createCulturalEntryUnexpectedKwargs
      "entry, isiZulu_example, english_example"
    processExamples s1 rest

/-- Embeds the loop `for lang, translation in
entry_data.get('additional_translations', {}).items()` at
`corpus/services.py` lines 105-110: each iteration calls
`CulturalEntry.objects.create` with the child-model keyword arguments
`entry`, `language`, `translation` and raises `TypeError`. -/
def processTranslations (s : Store) : List (String × JValue) → Except PyError Store
  | [] => .ok s
  | _pair :: rest => do
    let (s1, _e) ← createCulturalEntryUnexpectedKwargs "entry, language, translation"
    processTranslations s1 rest

/-- Embeds the check `all(key in entry_data for key in ['isiZulu_text',
'english_translation'])` at `corpus/services.py` line 83, with Python's
left-to-right short-circuit evaluation. -/
def requiredKeysCheck (entry_data : JValue) : Except PyError Bool :=
  match pyContainsKey entry_data "isiZulu_text" with
  | .error e => .error e
  | .ok false => .ok false
  | .ok true => pyContainsKey entry_data "english_translation"

/-- Embeds the body of one accepted iteration of the import loop
(`corpus/services.py` lines 86-110): create the entry with defaults for the
optional fields, then process the nested example and additional-translation
payloads. -/
def importOne (s : Store) (entry_data : JValue) : Except PyError Store := do
  let zul ← pySubscript entry_data "isiZulu_text"
  let eng ← pySubscript entry_data "english_translation"
  let pos ← pyGetDefault entry_data "part_of_speech" (.jstr "cultural")
  let gen ← pyGetDefault entry_data "genre" (.jstr "cultural")
  let ctx ← pyGetDefault entry_data "cultural_context" (.jstr "")
  let src ← pyGetDefault entry_data "source" (.jstr "")
  let (s1, _entry) := createCulturalEntry s (jToText zul) (jToText eng)
    (jToText pos) (jToText gen) (jToText ctx) (jToText src)
  let exVal ← pyGetDefault entry_data "examples" (.jarr [])
  let exItems ← pyIterate exVal
  let s2 ← processExamples s1 exItems
  let trVal ← pyGetDefault entry_data "additional_translations" (.jobj [])
  let trPairs ← pyItems trVal
  let s3 ← processTranslations s2 trPairs
  return s3

/-- Embeds the `for entry_data in json_data` loop of
`DataImportService.import_from_json` (`corpus/services.py` lines 81-112),
threading the store and the running `imported_count`. -/
def importLoop : Store → Nat → List JValue → Except PyError (Store × Nat)
  | s, count, [] => .ok (s, count)
  | s, count, entry_data :: rest =>
    match requiredKeysCheck entry_data with
    | .error e => .error e
    | .ok false => importLoop s count rest
    | .ok true =>
      match importOne s entry_data with
      | .error e => .error e
      | .ok s1 => importLoop s1 (count + 1) rest

/-- Embeds `DataImportService.import_from_json` (`corpus/services.py` lines
72-125) without its `@transaction.atomic` wrapper: run the loop, log one
activity of kind `import` stating the count, and return the count.  The
try/except at lines 78-125 re-raises, so errors propagate unchanged. -/
def import_from_json (s : Store) (json_data : List JValue) (user : Option String) :
    Except PyError (Store × Nat) :=
  match importLoop s 0 json_data with
  | .error e => .error e
  | .ok (s1, count) =>
    let s2 := ActivityLogService.log_activity s1 user "import"
      ("Imported " ++ toString count ++ " entries from JSON") none
    .ok (s2, count)

/-- The `@transaction.atomic` decorator on `import_from_json`: when the body
raises, every write made inside the transaction is rolled back, so the caller
observes the original store together with the propagated exception. -/
def importAtomic (s : Store) (json_data : List JValue) (user : Option String) :
    Store × Except PyError Nat :=
  match import_from_json s json_data user with
  | .ok (s1, count) => (s1, .ok count)
  | .error e => (s, .error e)

end DataImportService

/-- Responses of the `import_data` endpoint (`corpus/views.py` lines 110-138):
a 400 for a non-list payload, a 200 carrying `imported_count`, or a generic
500 when the service raised. -/
inductive ImportResponse where
  | badRequest : ImportResponse
  | ok : Nat → ImportResponse
  | serverError : ImportResponse
deriving Repr, DecidableEq

/-- Embeds `CulturalEntryViewSet.import_data` (`corpus/views.py` lines
110-138): reject non-list payloads with 400, otherwise run the atomic
service call, answering 200 with the count on success and 500 (store rolled
back) on any exception. -/
def import_data_view (s : Store) (payload : JValue) (user : Option String) :
    Store × ImportResponse :=
  match payload with
  | .jarr json_data =>
    match DataImportService.importAtomic s json_data user with
    | (s1, .ok count) => (s1, .ok count)
    | (_, .error _) => (s, .serverError)
  | _ => (s, .badRequest)

/-- Is a record accepted by the import loop's required-field check (both keys
present, no exception)? -/
def isAccepted (entry_data : JValue) : Bool :=
  match DataImportService.requiredKeysCheck entry_data with
  | .ok true => true
  | _ => false

/-- Number of records of a batch accepted by the required-field check. -/
def countAccepted (json_data : List JValue) : Nat :=
  (json_data.filter isAccepted).length

/-! Search service (`corpus/services.py` lines 9-67) and the API views of
`corpus/views.py`. -/

/-- Lower-casing a string character by character (the ASCII fragment of
Python `str.lower` / SQL `LOWER`, which is all the corpus texts exercise). -/
def pyLower (s : String) : String := String.mk (s.toList.map Char.toLower)

/-- Django's `__icontains` lookup: case-insensitive substring match (SQL
`LIKE` over lower-cased text).  An empty needle matches everything. -/
def icontains (hay needle : String) : Bool :=
  decide (List.IsInfix (pyLower needle).toList (pyLower hay).toList)

/-- The filter dict built by `CulturalEntryViewSet.search`
(`corpus/views.py` lines 77-82): the three GET parameters (absent ones are
`None`) together with the raw query string under the key `query`. -/
structure SearchFilters where
  part_of_speech : Option String
  genre : Option String
  language : Option String
  query : String
deriving Repr, DecidableEq

/-- Python truthiness of an optional string (`None` and the empty string are
falsy). -/
def optTruthy : Option String → Bool
  | none => false
  | some s => !(s == "")

/-- Embeds `SearchService._apply_filters` (`corpus/services.py` lines 44-60)
as the per-entry predicate the accumulated `Q` object denotes:
`part_of_speech` and `genre` are exact-match conditions when truthy, and a
`language` value of `isizulu` (resp. `english`) conjoins an extra substring
condition on the corresponding text column using `filters.get('query', '')`. -/
def applyFilters (e : CulturalEntry) (f : SearchFilters) : Bool :=
  (if optTruthy f.part_of_speech then e.part_of_speech == f.part_of_speech.getD "" else true) &&
  (if optTruthy f.genre then e.genre == f.genre.getD "" else true) &&
  (if f.language == some "isizulu" then icontains e.isiZulu_text f.query
   else if f.language == some "english" then icontains e.english_translation f.query
   else true)

/-- The entry-column disjuncts of the text query built at
`corpus/services.py` lines 22-24. -/
def entryFieldsMatch (e : CulturalEntry) (q : String) : Bool :=
  icontains e.isiZulu_text q || icontains e.english_translation q ||
  icontains e.cultural_context q

/-- The example-column disjuncts of the text query
(`corpus/services.py` lines 25-26). -/
def exampleMatch (ex : UsageExample) (q : String) : Bool :=
  icontains ex.isiZulu_example q || icontains ex.english_example q

/-- The LEFT OUTER JOIN of an entry with its `usage_examples` rows that the
`examples__` lookups induce: an entry without examples contributes a single
row with a NULL example, one with children contributes one row per child. -/
def leftJoinExamples (s : Store) (e : CulturalEntry) : List (Option UsageExample) :=
  match s.examples.filter (fun ex => ex.entry_id == e.id) with
  | [] => [none]
  | exs => exs.map some

/-- WHERE-clause of the search query on one join row
(`corpus/services.py` lines 18-31): always `is_active`, the OR across text
columns only when the query string is non-empty (Python truthiness of `if
query:`), and the filter conditions. -/
def searchRowKeep (e : CulturalEntry) (ex : Option UsageExample) (q : String)
    (f : Option SearchFilters) : Bool :=
  e.is_active &&
  (if q == "" then true
   else entryFieldsMatch e q ||
     (match ex with | some x => exampleMatch x q | none => false)) &&
  (match f with | some fl => applyFilters e fl | none => true)

/-- Rows of the joined search query before `.distinct()`: one copy of the
entry per join row satisfying the WHERE clause. -/
def searchJoinRows (s : Store) (q : String) (f : Option SearchFilters) :
    List CulturalEntry :=
  s.entries.flatMap (fun e =>
    (leftJoinExamples s e).filterMap (fun ex =>
      if searchRowKeep e ex q f then some e else none))

/-- Effect of the `bulk_update` write on one stored row: when some fetched
result instance carries this row's primary key, the row receives that
instance's incremented frequency; otherwise the row is untouched. -/
def bumpFrequency (results : List CulturalEntry) (e : CulturalEntry) : CulturalEntry :=
  match results.find? (fun r => r.id == e.id) with
  | some r => { e with frequency := r.frequency + 1 }
  | none => e

namespace SearchService

/-- Embeds `SearchService._update_frequencies` (`corpus/services.py` lines
62-67): each fetched result instance gets `frequency += 1` in memory and
`bulk_update` writes the instances' frequency values back by primary key, in
one batch statement. -/
def update_frequencies (s : Store) (results : List CulturalEntry) : Store :=
  { s with entries := s.entries.map (bumpFrequency results) }

/-- Embeds `SearchService.search_entries` (`corpus/services.py` lines 12-42):
evaluate the filtered, de-duplicated query, bump the frequency of every
returned entry, and return the (in-memory mutated) result instances. -/
def search_entries (s : Store) (query : String) (filters : Option SearchFilters) :
    Store × List CulturalEntry :=
  let results := List.dedup (searchJoinRows s query filters)
  let s1 := update_frequencies s results
  (s1, results.map (fun e => { e with frequency := e.frequency + 1 }))

end SearchService

/-- Responses of the search endpoint: a paginated page, a full (unpaginated)
result list, or a generic 500. -/
inductive SearchResponse where
  | okPaginated : List CulturalEntry → SearchResponse
  | okFull : List CulturalEntry → SearchResponse
  | serverError : SearchResponse
deriving Repr, DecidableEq

/-- Embeds `CulturalEntryViewSet.search` (`corpus/views.py` lines 71-108).
The pagination collaborator (`StandardPagination`, imported from
`corpus/pagination.py`, which is not part of the sources here) is passed in as
the function `paginate` standing for `self.paginate_queryset`: `some page`
when the paginator paginates the results, `none` when pagination does not
apply.  Faithful to the source, the activity log of kind `search` is written
only on the `none` branch, after the paginated branch has already returned. -/
def search_view (s : Store) (q : String) (pos gen lang : Option String)
    (user : Option String) (ip : Option String)
    (paginate : List CulturalEntry → Option (List CulturalEntry)) :
    Store × SearchResponse :=
  let filters : SearchFilters :=
    { part_of_speech := pos, genre := gen, language := lang, query := q }
  let (s1, results) := SearchService.search_entries s q (some filters)
  match paginate results with
  | some page => (s1, .okPaginated page)
  | none =>
    let s2 := ActivityLogService.log_activity s1 user "search"
      ("Searched for: " ++ q) ip
    (s2, .okFull results)

/-- Responses of the destroy endpoint. -/
inductive DestroyResponse where
  | noContent : DestroyResponse
  | notFound : DestroyResponse
  | serverError : DestroyResponse
deriving Repr, DecidableEq

/-- Embeds `CulturalEntryViewSet.perform_destroy` (`corpus/views.py` lines
60-69): set `is_active = False` and save, then call `log_activity` — whose
`ip_address=self.get_client_ip()` argument raises `TypeError`
(`get_client_ip` at line 157 requires a `request` argument), so no `delete`
log row is written and the exception propagates after the save has already
persisted (there is no request-wrapping transaction). -/
def perform_destroy (s : Store) (id : Nat) : Store × Except PyError Unit :=
  let s1 := { s with entries := s.entries.map (fun e =>
      if e.id == id then { e with is_active := false } else e) }
  (s1, .error (.typeError "get_client_ip missing 1 required positional argument"))

/-- Embeds the DELETE flow of the viewset: `get_object` resolves the id
against the base queryset `CulturalEntry.objects.filter(is_active=True)`
(`corpus/views.py` line 19), answering 404 when no active entry matches, then
`perform_destroy` runs; its exception surfaces as a 500 after the soft delete
has persisted. -/
def destroy_view (s : Store) (id : Nat) : Store × DestroyResponse :=
  match (s.entries.filter (fun e => e.is_active)).find? (fun e => e.id == id) with
  | none => (s, .notFound)
  | some _ =>
    match perform_destroy s id with
    | (s1, .ok _) => (s1, .noContent)
    | (s1, .error _) => (s1, .serverError)

/-- Embeds the list endpoint's row selection: the base queryset restricted to
`is_active=True` (`corpus/views.py` line 19).  Ordering (`-created_at`) and
pagination only permute and window this list and are not modelled; the claims
about listing are membership statements. -/
def list_view_entries (s : Store) : List CulturalEntry :=
  s.entries.filter (fun e => e.is_active)

/-- Embeds the retrieve endpoint's object resolution: lookup of the id in the
active-only base queryset, `none` standing for a 404. -/
def retrieve_view (s : Store) (id : Nat) : Option CulturalEntry :=
  (s.entries.filter (fun e => e.is_active)).find? (fun e => e.id == id)

/-! Export (`corpus/serializers.py` and `corpus/views.py` lines 140-155). -/

/-- The `PART_OF_SPEECH_CHOICES` table of `corpus/models.py` lines 14-25. -/
def PART_OF_SPEECH_CHOICES : List (String × String) :=
  [("noun", "Noun"), ("verb", "Verb"), ("adjective", "Adjective"),
   ("adverb", "Adverb"), ("proverb", "Proverb"), ("idiom", "Idiom"),
   ("narrative", "Narrative"), ("song", "Song"), ("greeting", "Greeting"),
   ("cultural", "Cultural Term")]

/-- The `GENRE_CHOICES` table of `corpus/models.py` lines 27-34. -/
def GENRE_CHOICES : List (String × String) :=
  [("proverb", "Proverb"), ("idiom", "Idiom"), ("narrative", "Narrative"),
   ("song", "Song"), ("greeting", "Greeting"), ("cultural", "Cultural")]

/-- The `LANGUAGE_CHOICES` table of `corpus/models.py` lines 113-119. -/
def LANGUAGE_CHOICES : List (String × String) :=
  [("isixhosa", "isiXhosa"), ("sesotho", "Sesotho"), ("setswana", "Setswana"),
   ("tshivenda", "Tshivenda"), ("xitsonga", "Xitsonga")]

/-- Django's `get_FOO_display`: the human-readable label from the choices
table, or the raw value when it is not a declared choice. -/
def choiceDisplay (choices : List (String × String)) (v : String) : String :=
  match choices.find? (fun p => p.1 == v) with
  | some p => p.2
  | none => v

/-- Serialization of a `UsageExample` child by `UsageExampleSerializer`
(`corpus/serializers.py` lines 5-9). -/
def serializeExample (ex : UsageExample) : JValue :=
  .jobj [("id", .jint ex.id), ("isiZulu_example", .jstr ex.isiZulu_example),
         ("english_example", .jstr ex.english_example)]

/-- Serialization of an `AdditionalTranslation` child by
`AdditionalTranslationSerializer` (`corpus/serializers.py` lines 11-17). -/
def serializeTranslation (t : AdditionalTranslation) : JValue :=
  .jobj [("id", .jint t.id), ("language", .jstr t.language),
         ("language_display", .jstr (choiceDisplay LANGUAGE_CHOICES t.language)),
         ("translation", .jstr t.translation)]

/-- Serialization of a `Collocation` child by `CollocationSerializer`
(`corpus/serializers.py` lines 19-23). -/
def serializeCollocation (c : Collocation) : JValue :=
  .jobj [("id", .jint c.id), ("phrase", .jstr c.phrase),
         ("frequency", .jint c.frequency)]

/-- Serialization of an entry by `CulturalEntrySerializer`
(`corpus/serializers.py` lines 25-49): the scalar columns, the display
fields, and the three nested child collections — each a JSON array.
The `created_at`/`updated_at` fields are not modelled (no claim reads them
and the import code never looks at those keys). -/
def serializeEntry (s : Store) (e : CulturalEntry) : JValue :=
  .jobj [("id", .jint e.id),
         ("isiZulu_text", .jstr e.isiZulu_text),
         ("english_translation", .jstr e.english_translation),
         ("part_of_speech", .jstr e.part_of_speech),
         ("part_of_speech_display", .jstr (choiceDisplay PART_OF_SPEECH_CHOICES e.part_of_speech)),
         ("genre", .jstr e.genre),
         ("genre_display", .jstr (choiceDisplay GENRE_CHOICES e.genre)),
         ("cultural_context", .jstr e.cultural_context),
         ("source", .jstr e.source),
         ("frequency", .jint e.frequency),
         ("is_active", .jbool e.is_active),
         ("examples", .jarr ((s.examples.filter (fun ex => ex.entry_id == e.id)).map serializeExample)),
         ("additional_translations", .jarr ((s.additional_translations.filter (fun t => t.entry_id == e.id)).map serializeTranslation)),
         ("collocations", .jarr ((s.collocations.filter (fun c => c.entry_id == e.id)).map serializeCollocation))]

/-- Embeds `CulturalEntryViewSet.export_data` (`corpus/views.py` lines
140-155): serialize all active entries with full nested data and append one
`export` activity row. -/
def export_data_view (s : Store) (user ip : Option String) : Store × List JValue :=
  let payload := (s.entries.filter (fun e => e.is_active)).map (serializeEntry s)
  let s1 := ActivityLogService.log_activity s user "export" "Exported corpus data" ip
  (s1, payload)

/-! Entry create/update (`corpus/serializers.py` lines 51-88 and the
`perform_create`/`perform_update` hooks of `corpus/views.py`). -/

/-- Validated nested example payload (`UsageExampleSerializer` writable
fields). -/
structure ExamplePayload where
  isiZulu_example : String
  english_example : String
deriving Repr, DecidableEq

/-- Validated nested translation payload (`AdditionalTranslationSerializer`
writable fields). -/
structure TranslationPayload where
  language : String
  translation : String
deriving Repr, DecidableEq

/-- Validated data accepted by `CulturalEntrySerializer` on create: the
writable scalar columns (everything in `Meta.fields` except the
`read_only_fields` `id`, `frequency`, `created_at`, `updated_at` and the
read-only display/collocation fields) plus the two writable nested
collections. -/
structure EntryPayload where
  isiZulu_text : String
  english_translation : String
  part_of_speech : String
  genre : String
  cultural_context : String
  source : String
  is_active : Bool
  examples : List ExamplePayload
  additional_translations : List TranslationPayload
deriving Repr, DecidableEq

/-- Partial validated data accepted on update: each writable scalar may be
absent, and each nested collection is `none` when not supplied (in which case
the children are left untouched). -/
structure EntryPatch where
  isiZulu_text : Option String
  english_translation : Option String
  part_of_speech : Option String
  genre : Option String
  cultural_context : Option String
  source : Option String
  is_active : Option Bool
  examples : Option (List ExamplePayload)
  additional_translations : Option (List TranslationPayload)
deriving Repr, DecidableEq

/-- Appends the child rows for a list of example payloads
(`UsageExample.objects.create(entry=entry, **example_data)` at
`corpus/serializers.py` lines 58-59 and 79-80). -/
def createExamples (s : Store) (entry_id : Nat) (exs : List ExamplePayload) : Store :=
  exs.foldl (fun acc ex =>
    { acc with
      examples := acc.examples ++ [⟨acc.nextId, entry_id, ex.isiZulu_example, ex.english_example⟩],
      nextId := acc.nextId + 1 }) s

/-- Appends the child rows for a list of translation payloads
(`AdditionalTranslation.objects.create(entry=entry, **translation_data)` at
`corpus/serializers.py` lines 62-63 and 85-86). -/
def createTranslations (s : Store) (entry_id : Nat) (ts : List TranslationPayload) : Store :=
  ts.foldl (fun acc t =>
    { acc with
      additional_translations := acc.additional_translations ++ [⟨acc.nextId, entry_id, t.language, t.translation⟩],
      nextId := acc.nextId + 1 }) s

/-- Embeds `CulturalEntrySerializer.create` (`corpus/serializers.py` lines
51-65) followed by the `perform_create` hook (`corpus/views.py` lines 42-49):
the entry and its nested children are persisted; the subsequent
`log_activity` call raises `TypeError` while evaluating
`self.get_client_ip()` (wrong arity), so no `create` log row is written and
the request ends in a 500 after the writes have persisted. -/
def create_view (s : Store) (p : EntryPayload) : Store × Except PyError CulturalEntry :=
  let e : CulturalEntry :=
    { id := s.nextId, isiZulu_text := p.isiZulu_text,
      english_translation := p.english_translation,
      part_of_speech := p.part_of_speech, genre := p.genre,
      cultural_context := p.cultural_context, source := p.source,
      frequency := 0, is_active := p.is_active }
  let s1 := { s with entries := s.entries ++ [e], nextId := s.nextId + 1 }
  let s2 := createExamples s1 e.id p.examples
  let s3 := createTranslations s2 e.id p.additional_translations
  (s3, .error (.typeError "get_client_ip missing 1 required positional argument"))

/-- Patch of the scalar columns of an entry by the `setattr` loop of
`CulturalEntrySerializer.update` (`corpus/serializers.py` lines 72-74).
`frequency` is in `read_only_fields`, so it is never in `validated_data` and
is never touched. -/
def patchEntry (e : CulturalEntry) (p : EntryPatch) : CulturalEntry :=
  { e with
    isiZulu_text := p.isiZulu_text.getD e.isiZulu_text,
    english_translation := p.english_translation.getD e.english_translation,
    part_of_speech := p.part_of_speech.getD e.part_of_speech,
    genre := p.genre.getD e.genre,
    cultural_context := p.cultural_context.getD e.cultural_context,
    source := p.source.getD e.source,
    is_active := p.is_active.getD e.is_active }

/-- Embeds `CulturalEntrySerializer.update` (`corpus/serializers.py` lines
67-88) followed by the `perform_update` hook: patch the scalar columns of the
addressed entry, replace each supplied child collection wholesale
(delete-all-then-recreate), and — as in `perform_create` — fail with
`TypeError` before any `update` log row is written. -/
def update_view (s : Store) (id : Nat) (p : EntryPatch) :
    Store × Except PyError Unit :=
  match (s.entries.filter (fun e => e.is_active)).find? (fun e => e.id == id) with
  | none => (s, .error (.keyError "Not found"))
  | some _ =>
    let s1 := { s with entries := s.entries.map (fun e =>
        if e.id == id then patchEntry e p else e) }
    let s2 :=
      match p.examples with
      | none => s1
      | some exs =>
        let s1' := { s1 with examples := s1.examples.filter (fun ex => !(ex.entry_id == id)) }
        createExamples s1' id exs
    let s3 :=
      match p.additional_translations with
      | none => s2
      | some ts =>
        let s2' := { s2 with additional_translations := s2.additional_translations.filter (fun t => !(t.entry_id == id)) }
        createTranslations s2' id ts
    (s3, .error (.typeError "get_client_ip missing 1 required positional argument"))

/-! Analytics service (`analytics/services.py`). -/

/-- A Python regex word character (`\w`) over the ASCII fragment exercised by
the corpus texts: letters, digits and the underscore. -/
def pyWordChar (c : Char) : Bool := c.isAlphanum || c == '_'

/-- Accumulating tokenizer: splits a character stream into the maximal runs
of word characters, which is what `re.findall` returns for the pattern used
at `analytics/services.py` line 20. -/
def findallWordsAux : List Char → List Char → List String
  | [], acc => if acc.isEmpty then [] else [String.mk acc.reverse]
  | c :: rest, acc =>
    if pyWordChar c then findallWordsAux rest (c :: acc)
    else if acc.isEmpty then findallWordsAux rest []
    else String.mk acc.reverse :: findallWordsAux rest []

/-- Embeds `re.findall` with the word pattern of `analytics/services.py`
line 20: the list of maximal word-character runs of the text, in order. -/
def findallWords (text : String) : List String :=
  findallWordsAux text.toList []

namespace AnalyticsService

/-- The `' '.join(...)` over the `isiZulu_text` of all active entries
(`analytics/services.py` lines 14-17).  The store order stands in for the
`-created_at` queryset order; the properties proved about the word counts are
insensitive to the concatenation order. -/
def all_text (s : Store) : String :=
  String.intercalate " " ((s.entries.filter (fun e => e.is_active)).map (fun e => e.isiZulu_text))

/-- The token stream `re.findall(pattern, all_text.lower())` of
`analytics/services.py` line 20. -/
def words (s : Store) : List String :=
  findallWords (pyLower (all_text s))

end AnalyticsService

/-- One step of `collections.Counter` construction: bump the count of a seen
word in place, append a new word with count 1 (dict insertion order — new
keys go last, so the key order is first-encounter order). -/
def counterInsert (acc : List (String × Nat)) (w : String) : List (String × Nat) :=
  if acc.any (fun p => p.1 == w) then
    acc.map (fun p => if p.1 == w then (p.1, p.2 + 1) else p)
  else acc ++ [(w, 1)]

/-- Embeds `collections.Counter(words)` as an association list in
first-encounter key order. -/
def counter (ws : List String) : List (String × Nat) :=
  ws.foldl counterInsert []

/-- Stable insertion into a count-descending list: the new pair goes after
every pair with a greater-or-equal count, so pairs of equal count keep their
original relative order. -/
def insertByCountDesc (p : String × Nat) : List (String × Nat) → List (String × Nat)
  | [] => [p]
  | q :: rest => if p.2 ≤ q.2 then q :: insertByCountDesc p rest else p :: q :: rest

/-- Stable sort by descending count, as `Counter.most_common` (documented as
`sorted(counter.items(), key=count, reverse=True)`, which is stable) orders
the counter items. -/
def sortByCountDesc (l : List (String × Nat)) : List (String × Nat) :=
  l.foldl (fun acc p => insertByCountDesc p acc) []

namespace AnalyticsService

/-- Embeds `AnalyticsService.get_word_frequency` (`analytics/services.py`
lines 7-23): `dict(Counter(words).most_common(limit))`, i.e. the first
`limit` pairs of the count-descending stable ordering of the counter, as an
ordered mapping. -/
def get_word_frequency (s : Store) (limit : Nat) : List (String × Nat) :=
  (sortByCountDesc (counter (words s))).take limit

end AnalyticsService

/-- The public operations of the system, for statements quantifying over
every operation the API exposes. -/
inductive Operation where
  | searchOp : String → Option String → Option String → Option String → Operation
  | importOp : JValue → Option String → Operation
  | createOp : EntryPayload → Operation
  | updateOp : Nat → EntryPatch → Operation
  | destroyOp : Nat → Operation
  | exportOp : Operation

/-- The store transformation each public operation performs. -/
def applyOp (s : Store) : Operation → Store
  | .searchOp q pos gen lang =>
    (SearchService.search_entries s q (some ⟨pos, gen, lang, q⟩)).1
  | .importOp payload user => (import_data_view s payload user).1
  | .createOp p => (create_view s p).1
  | .updateOp id p => (update_view s id p).1
  | .destroyOp id => (destroy_view s id).1
  | .exportOp => (export_data_view s none none).1

deriving instance DecidableEq for Except

/-! Measurement helpers used to state the claims, and concrete fixtures. -/

/-- The persisted frequency counter of the entry with the given id (`none`
when no such row exists; with unique primary keys the row is unique). -/
def getFrequency (s : Store) (id : Nat) : Option Int :=
  (s.entries.find? (fun e => e.id == id)).map (fun e => e.frequency)

/-- Repeats the same search invocation `n` times, threading the store. -/
def searchN (s : Store) (q : String) (f : Option SearchFilters) : Nat → Store
  | 0 => s
  | n + 1 => searchN (SearchService.search_entries s q f).1 q f n

/-- Identities of the entries a search invocation returns. -/
def searchResultIds (s : Store) (q : String) (f : Option SearchFilters) : List Nat :=
  ((SearchService.search_entries s q f).2).map (fun e => e.id)

/-- Entry-level reading of the search predicate: the per-entry condition that
is equivalent to the entry contributing at least one row to the joined query
(active, text match via its own columns or some child example when the query
is non-empty, and the filters). -/
def entryMatchesSearch (s : Store) (e : CulturalEntry) (q : String)
    (f : Option SearchFilters) : Bool :=
  e.is_active &&
  (if q == "" then true
   else entryFieldsMatch e q ||
     s.examples.any (fun ex => ex.entry_id == e.id && exampleMatch ex q)) &&
  (match f with | some fl => applyFilters e fl | none => true)

/-- Number of activity-log rows recording the given action kind. -/
def countAction (s : Store) (a : String) : Nat :=
  (s.logs.filter (fun l => l.action == a)).length

/-- Fixture for the round-trip claim: a store holding one active entry with
no child rows. -/
def c1Store : Store :=
  { Store.empty with
    entries := [⟨0, "Ubuntu", "Humanity", "cultural", "cultural", "", "", 0, true⟩],
    nextId := 1 }

/-- The exported payload of `c1Store`. -/
def c1Exported : List JValue := (export_data_view c1Store none none).2

/-- Fixture for the nested-children claim: one well-formed import record
carrying a nested example payload in exactly the shape the import code reads
(`isizulu`/`english` keys). -/
def c2Record : JValue :=
  .jobj [("isiZulu_text", .jstr "Umuntu ngumuntu ngabantu"),
         ("english_translation", .jstr "A person is a person through other people"),
         ("examples", .jarr [.jobj [("isizulu", .jstr "Sawubona"), ("english", .jstr "Hello")]])]

/-- Fixture for the search-logging claim: a store with one active entry the
query below matches. -/
def c3Store : Store :=
  { Store.empty with
    entries := [⟨0, "Ubuntu", "Humanity", "cultural", "cultural", "", "", 0, true⟩],
    nextId := 1 }

/-- A paginator that always yields a page (the deployed configuration sets
`pagination_class = StandardPagination`, under which `paginate_queryset`
returns a page). -/
def c3Paginate : List CulturalEntry → Option (List CulturalEntry) :=
  fun l => some (l.take 20)

/-- A valid import record (both required text fields present). -/
def c7ValidRecord : JValue :=
  .jobj [("isiZulu_text", .jstr "Isaga"), ("english_translation", .jstr "Proverb")]

/-- An import record missing `english_translation`. -/
def c7MissingRecord : JValue :=
  .jobj [("isiZulu_text", .jstr "Okungaphelele")]

/-- Fixture for the empty-required-fields claim: both keys present, both
values empty strings. -/
def c10Record : JValue :=
  .jobj [("isiZulu_text", .jstr ""), ("english_translation", .jstr "")]

/-- Fixture for the soft-delete claim: two active entries. -/
def c6Store : Store :=
  { Store.empty with
    entries := [⟨0, "Ubuntu", "Humanity", "cultural", "cultural", "", "", 0, true⟩,
                ⟨1, "Isaga", "Proverb", "proverb", "proverb", "", "", 2, true⟩],
    nextId := 2 }

/-- Fixture for the de-duplication claim: one active entry with two child
examples that both match the query `"ubuntu"`. -/
def c8Store : Store :=
  { Store.empty with
    entries := [⟨0, "Isaga", "Proverb", "proverb", "proverb", "", "", 0, true⟩],
    examples := [⟨1, 0, "ubuntu ngabantu", "through people"⟩,
                 ⟨2, 0, "omunye ubuntu", "another"⟩],
    nextId := 3 }

/-- Fixture for the frequency claim: one active entry matching `"ubuntu"`
with frequency 5, one active entry that does not match. -/
def c5Store : Store :=
  { Store.empty with
    entries := [⟨0, "Ubuntu", "Humanity", "cultural", "cultural", "", "", 5, true⟩,
                ⟨1, "Isaga", "Proverb", "proverb", "proverb", "", "", 1, true⟩],
    nextId := 2 }

/-- Fixture for the word-frequency claim: active entries in whose source
texts the word `Ubuntu` occurs 3 times and every other word at most twice. -/
def c9Store : Store :=
  { Store.empty with
    entries := [⟨0, "Ubuntu umuntu", "x", "cultural", "cultural", "", "", 0, true⟩,
                ⟨1, "Ubuntu ngabantu Ubuntu umuntu", "y", "cultural", "cultural", "", "", 0, true⟩],
    nextId := 2 }

/-! Characterization of the import service. -/

/-- A non-empty nested `examples` payload always aborts the record: every
iteration of the examples loop raises. -/
theorem processExamples_ok {s s' : Store} {items : List JValue}
    (h : DataImportService.processExamples s items = .ok s') : items = [] ∧ s' = s := by
  cases items with
  | nil =>
    have h2 := h
    simp only [DataImportService.processExamples, Except.ok.injEq] at h2
    exact ⟨rfl, h2.symm⟩
  | cons a t =>
    exfalso
    cases ha : pyGetDefault a "isizulu" (.jstr "") <;>
    cases hb : pyGetDefault a "english" (.jstr "") <;>
    simp [DataImportService.processExamples, createCulturalEntryUnexpectedKwargs, ha, hb,
      Except.bind, Bind.bind] at h

/-- A non-empty nested `additional_translations` dict always aborts the
record: every iteration of the translations loop raises. -/
theorem processTranslations_ok {s s' : Store} {items : List (String × JValue)}
    (h : DataImportService.processTranslations s items = .ok s') : items = [] ∧ s' = s := by
  cases items with
  | nil =>
    have h2 := h
    simp only [DataImportService.processTranslations, Except.ok.injEq] at h2
    exact ⟨rfl, h2.symm⟩
  | cons a t =>
    exfalso
    simp [DataImportService.processTranslations, createCulturalEntryUnexpectedKwargs,
      Except.bind, Bind.bind] at h

/-- When one import-loop iteration succeeds, its whole effect on the store is
the insertion of one fresh entry row (frequency 0, active); in particular no
child row was written. -/
theorem importOne_ok_shape {s s' : Store} {d : JValue}
    (h : DataImportService.importOne s d = .ok s') :
    ∃ e : CulturalEntry, e.frequency = 0 ∧ e.is_active = true ∧
      s' = { s with entries := s.entries ++ [e], nextId := s.nextId + 1 } := by
  cases d with
  | jobj fields =>
    simp only [DataImportService.importOne, pySubscript, pyGetDefault, Bind.bind,
      Except.bind, createCulturalEntry] at h
    repeat' split at h
    all_goals try simp at h
    rename_i x5 v5 h5 x4 v4 h4 x3 v3 h3 x2 v2 h2 x1 v1 h1 x0 v0 h0
    obtain ⟨-, rfl⟩ := processExamples_ok h2
    obtain ⟨-, rfl⟩ := processTranslations_ok h0
    simp only [pure, Except.pure, Except.ok.injEq] at h
    exact ⟨_, rfl, rfl, h.symm⟩
  | jstr v =>
    exfalso; simp [DataImportService.importOne, pySubscript, Bind.bind, Except.bind] at h
  | jint v =>
    exfalso; simp [DataImportService.importOne, pySubscript, Bind.bind, Except.bind] at h
  | jbool v =>
    exfalso; simp [DataImportService.importOne, pySubscript, Bind.bind, Except.bind] at h
  | jnull =>
    exfalso; simp [DataImportService.importOne, pySubscript, Bind.bind, Except.bind] at h
  | jarr v =>
    exfalso; simp [DataImportService.importOne, pySubscript, Bind.bind, Except.bind] at h

/-- Full characterization of a successful import loop: the entry table grows
by exactly one fresh active row per accepted record, every other table is
untouched, and the returned count is the number of accepted records. -/
theorem importLoop_ok :
    ∀ (records : List JValue) (s : Store) (count : Nat) {s' : Store} {n : Nat},
      DataImportService.importLoop s count records = .ok (s', n) →
      (∃ newEs : List CulturalEntry,
        s'.entries = s.entries ++ newEs ∧
        newEs.length = countAccepted records ∧
        ∀ e ∈ newEs, e.frequency = 0 ∧ e.is_active = true) ∧
      s'.examples = s.examples ∧
      s'.additional_translations = s.additional_translations ∧
      s'.collocations = s.collocations ∧
      s'.logs = s.logs ∧
      n = count + countAccepted records := by
  intro records
  induction records with
  | nil =>
    intro s count s' n h
    simp only [DataImportService.importLoop, Except.ok.injEq, Prod.mk.injEq] at h
    obtain ⟨rfl, rfl⟩ := h
    exact ⟨⟨[], by simp, by simp [countAccepted], by simp⟩, rfl, rfl, rfl, rfl,
      by simp [countAccepted]⟩
  | cons d rest ih =>
    intro s count s' n h
    simp only [DataImportService.importLoop] at h
    cases hrc : DataImportService.requiredKeysCheck d with
    | error e => rw [hrc] at h; exact absurd h (by simp)
    | ok b =>
      rw [hrc] at h
      cases b with
      | false =>
        have hacc : isAccepted d = false := by simp [isAccepted, hrc]
        have hres := ih s count h
        obtain ⟨⟨newEs, hen, hlen, hprop⟩, hex, htr, hco, hlg, hn⟩ := hres
        exact ⟨⟨newEs, hen, by simpa [countAccepted, hacc] using hlen, hprop⟩,
          hex, htr, hco, hlg, by simpa [countAccepted, hacc] using hn⟩
      | true =>
        have hacc : isAccepted d = true := by simp [isAccepted, hrc]
        cases hio : DataImportService.importOne s d with
        | error e => rw [hio] at h; exact absurd h (by simp)
        | ok s1 =>
          rw [hio] at h
          obtain ⟨e0, hf, ha, rfl⟩ := importOne_ok_shape hio
          obtain ⟨⟨newEs, hen, hlen, hprop⟩, hex, htr, hco, hlg, hn⟩ := ih _ _ h
          refine ⟨⟨e0 :: newEs, ?_, ?_, ?_⟩, by simpa using hex, by simpa using htr,
            by simpa using hco, by simpa using hlg, ?_⟩
          · rw [hen]; simp
          · simp [countAccepted, hacc] at hlen ⊢
            omega
          · intro e he
            rcases List.mem_cons.mp he with rfl | hmem
            · exact ⟨hf, ha⟩
            · exact hprop e hmem
          · simp only [countAccepted] at hn
            simp [countAccepted, hacc, hn]
            omega

/-! Claim theorems: bulk import/export. -/

/-- C1: the claimed export/import round-trip fails on the code.  Exporting
the single active (childless) entry of `c1Store` yields one record, but
re-importing that exported list against an empty store raises
`AttributeError` (the serializer emits `additional_translations` as a JSON
array while the import code calls `.items()` on it), the transaction rolls
back, and zero entries result instead of the claimed one equivalent entry. -/
theorem C1_export_import_roundtrip_fails :
    c1Exported.length = 1 ∧
    DataImportService.importAtomic Store.empty c1Exported none =
      (Store.empty, .error (.attributeError "object has no attribute items")) := by
  exact ⟨by decide, by decide⟩

/-- C2: the claimed persistence of nested children fails on the code.
Importing one accepted record that carries a nested example payload raises
`TypeError` (the code calls `CulturalEntry.objects.create` with the
`UsageExample` field names at `corpus/services.py` line 98), so the batch is
rolled back: no entry and no `UsageExample` row is written, where the claim
promises a new entry owning a corresponding example row. -/
theorem C2_nested_children_not_persisted :
    DataImportService.importAtomic Store.empty [c2Record] (some "admin") =
      (Store.empty, .error (.typeError
        "CulturalEntry got unexpected keyword arguments: entry, isiZulu_example, english_example")) := by
  decide

/-- C10: the import acceptance check tests only key presence, so a record
whose two required text keys hold empty strings is accepted, counted in
`imported_count`, and stored as an entry with empty required text fields
(`objects.create` bypasses the `MinLengthValidator`). -/
theorem C10_empty_required_fields_accepted :
    (DataImportService.importAtomic Store.empty [c10Record] none).2 = .ok 1 ∧
    (DataImportService.importAtomic Store.empty [c10Record] none).1.entries =
      [⟨0, "", "", "cultural", "cultural", "", "", 0, true⟩] := by
  exact ⟨by decide, by decide⟩

/-- Unfolds the search endpoint into its two response paths (pure equation on
the embedding, used to reason about the view without re-expanding its
let-bindings). -/
theorem search_view_eq (s : Store) (q : String) (pos gen lang user ip : Option String)
    (paginate : List CulturalEntry → Option (List CulturalEntry)) :
    search_view s q pos gen lang user ip paginate =
      match paginate (SearchService.search_entries s q (some ⟨pos, gen, lang, q⟩)).2 with
      | some page =>
        ((SearchService.search_entries s q (some ⟨pos, gen, lang, q⟩)).1, .okPaginated page)
      | none =>
        (ActivityLogService.log_activity
          (SearchService.search_entries s q (some ⟨pos, gen, lang, q⟩)).1 user "search"
          ("Searched for: " ++ q) ip,
         .okFull (SearchService.search_entries s q (some ⟨pos, gen, lang, q⟩)).2) := rfl

/-- The search service itself never writes activity-log rows. -/
theorem search_entries_fst_logs (s : Store) (q : String) (f : Option SearchFilters) :
    ((SearchService.search_entries s q f).1).logs = s.logs := rfl

/-- Logging an action adds exactly one row counted under that action kind. -/
theorem countAction_log_activity (s : Store) (u : Option String) (a d : String)
    (ip : Option String) :
    countAction (ActivityLogService.log_activity s u a d ip) a = countAction s a + 1 := by
  simp [countAction, ActivityLogService.log_activity, List.filter_append]

/-- C3 counterexample: a search invocation that returns results to the
caller (the paginated path, which is the deployed configuration since
`pagination_class` is set) creates zero `search` activity-log rows, not
exactly one. -/
theorem C3_counterexample_paginated_search_unlogged :
    (search_view c3Store "Ubuntu" none none none (some "u") none c3Paginate).2 =
      .okPaginated [⟨0, "Ubuntu", "Humanity", "cultural", "cultural", "", "", 1, true⟩] ∧
    countAction (search_view c3Store "Ubuntu" none none none (some "u") none c3Paginate).1 "search" = 0 := by
  exact ⟨by decide, by decide⟩

/-- C3 (amended): a search invocation appends exactly one `search`
activity-log row only on the non-paginated fallback path; when the paginator
yields a page, the endpoint returns the results without creating any
activity-log row (the logging call sits after the paginated early return in
`corpus/views.py` lines 88-100). -/
theorem C3_search_logged_only_on_unpaginated_path :
    ∀ (s : Store) (q : String) (pos gen lang user ip : Option String)
      (paginate : List CulturalEntry → Option (List CulturalEntry)),
      match search_view s q pos gen lang user ip paginate with
      | (s', .okPaginated _) => countAction s' "search" = countAction s "search"
      | (s', .okFull _) => countAction s' "search" = countAction s "search" + 1
      | (_, .serverError) => True := by
  intro s q pos gen lang user ip paginate
  rw [search_view_eq]
  cases hp : paginate (SearchService.search_entries s q (some ⟨pos, gen, lang, q⟩)).2 with
  | some page =>
    simp [countAction, search_entries_fst_logs]
  | none =>
    simp only []
    rw [countAction_log_activity]
    simp [countAction, search_entries_fst_logs]

/-- C4: the import batch is atomic.  A non-list payload or any exception
while processing the batch leaves the store exactly as it was (the
`@transaction.atomic` rollback); a successful batch appends exactly one
fresh active entry per accepted record and touches no child table (on a
successful batch no child payload can have been processed, see the C2
theorem, so every accepted entry and all the child rows the batch created —
none — persist). -/
theorem C4_import_batch_atomicity :
    ∀ (s : Store) (payload : JValue) (user : Option String),
      match import_data_view s payload user with
      | (s', .badRequest) => s' = s
      | (s', .serverError) => s' = s
      | (s', .ok n) =>
        ∃ json_data newEs, payload = .jarr json_data ∧
          s'.entries = s.entries ++ newEs ∧
          newEs.length = countAccepted json_data ∧
          n = countAccepted json_data ∧
          (∀ e ∈ newEs, e.frequency = 0 ∧ e.is_active = true) ∧
          s'.examples = s.examples ∧
          s'.additional_translations = s.additional_translations := by
  intro s payload user
  cases payload with
  | jarr json_data =>
    simp only [import_data_view, DataImportService.importAtomic,
      DataImportService.import_from_json]
    cases hl : DataImportService.importLoop s 0 json_data with
    | error e => simp
    | ok p =>
      obtain ⟨s1, count⟩ := p
      obtain ⟨⟨newEs, hen, hlen, hprop⟩, hex, htr, hco, hlg, hn⟩ :=
        importLoop_ok json_data s 0 hl
      exact ⟨json_data, newEs, rfl,
        by simpa [ActivityLogService.log_activity] using hen, hlen,
        by simpa using hn, hprop,
        by simpa [ActivityLogService.log_activity] using hex,
        by simpa [ActivityLogService.log_activity] using htr⟩
  | jobj fields => rfl
  | jstr v => rfl
  | jint v => rfl
  | jbool v => rfl
  | jnull => rfl

/-- C7: a record missing a required text key is skipped silently (the loop
continues with the same store and count, raising nothing), a completed
batch returns exactly the number of accepted records with exactly that many
new entries stored, and the concrete one-valid-one-invalid batch returns
`imported_count = 1` with a single new entry. -/
theorem C7_import_skips_invalid_counts_accepted :
    (∀ (s : Store) (count : Nat) (fields : List (String × JValue)) (rest : List JValue),
      (jobjHasKey fields "isiZulu_text" = false ∨
       jobjHasKey fields "english_translation" = false) →
      DataImportService.importLoop s count (.jobj fields :: rest) =
        DataImportService.importLoop s count rest) ∧
    (∀ (s : Store) (json_data : List JValue) (user s' n),
      DataImportService.import_from_json s json_data user = .ok (s', n) →
      n = countAccepted json_data ∧
      s'.entries.length = s.entries.length + n) ∧
    (DataImportService.importAtomic Store.empty [c7ValidRecord, c7MissingRecord] (some "admin")).2
      = .ok 1 ∧
    (DataImportService.importAtomic Store.empty [c7ValidRecord, c7MissingRecord]
      (some "admin")).1.entries.length = 1 := by
  refine ⟨?_, ?_, by decide, by decide⟩
  · intro s count fields rest hmiss
    have hrc : DataImportService.requiredKeysCheck (.jobj fields) = .ok false := by
      rcases hmiss with hm | hm
      · simp [DataImportService.requiredKeysCheck, pyContainsKey, hm]
      · cases hz : jobjHasKey fields "isiZulu_text" <;>
          simp [DataImportService.requiredKeysCheck, pyContainsKey, hz, hm]
    simp [DataImportService.importLoop, hrc]
  · intro s json_data user s' n h
    simp only [DataImportService.import_from_json] at h
    cases hl : DataImportService.importLoop s 0 json_data with
    | error e => rw [hl] at h; exact absurd h (by simp)
    | ok p =>
      obtain ⟨s1, count⟩ := p
      rw [hl] at h
      simp only [Except.ok.injEq, Prod.mk.injEq] at h
      obtain ⟨h1, h2⟩ := h
      subst h1
      subst h2
      obtain ⟨⟨newEs, hen, hlen, hprop⟩, hex, htr, hco, hlg, hn⟩ :=
        importLoop_ok json_data s 0 hl
      constructor
      · simpa using hn
      · simp [ActivityLogService.log_activity, hen, hlen, hn]

/-- Witness for C7: instantiates both universally quantified parts at
concrete inputs, discharging their hypotheses. -/
theorem C7_witness :
    DataImportService.importLoop Store.empty 0 [c7MissingRecord] =
      DataImportService.importLoop Store.empty 0 [] ∧
    (1 = countAccepted [c7ValidRecord, c7MissingRecord] ∧
      (⟨[⟨0, "Isaga", "Proverb", "cultural", "cultural", "", "", 0, true⟩], [], [], [],
        [⟨1, some "admin", "import", "Imported 1 entries from JSON", none⟩], 2⟩ :
          Store).entries.length = Store.empty.entries.length + 1) :=
  ⟨C7_import_skips_invalid_counts_accepted.1 Store.empty 0 _ [] (Or.inr (by decide)),
   C7_import_skips_invalid_counts_accepted.2.1 Store.empty
     [c7ValidRecord, c7MissingRecord] (some "admin") _ 1 (by decide)⟩

/-! Claim theorems: soft delete and search de-duplication. -/

/-- Any entry contributing a row to the joined search query is a stored,
active entry (the base predicate always restricts to `is_active=True`). -/
theorem mem_searchJoinRows {s : Store} {q : String} {f : Option SearchFilters}
    {e : CulturalEntry} (h : e ∈ searchJoinRows s q f) :
    e ∈ s.entries ∧ e.is_active = true := by
  simp only [searchJoinRows, List.mem_flatMap] at h
  obtain ⟨e0, he0, hmem⟩ := h
  simp only [List.mem_filterMap] at hmem
  obtain ⟨ex, hex, hif⟩ := hmem
  by_cases hk : searchRowKeep e0 ex q f
  · rw [if_pos hk] at hif
    injection hif with hif
    subst hif
    refine ⟨he0, ?_⟩
    simp only [searchRowKeep, Bool.and_eq_true] at hk
    exact hk.1.1
  · rw [if_neg hk] at hif
    cases hif

/-- Any entry a search returns carries the identity of a stored active
entry. -/
theorem mem_search_results {s : Store} {q : String} {f : Option SearchFilters}
    {e : CulturalEntry} (h : e ∈ (SearchService.search_entries s q f).2) :
    ∃ e0 ∈ s.entries, e.id = e0.id ∧ e0.is_active = true := by
  simp only [SearchService.search_entries, List.mem_map] at h
  obtain ⟨e0, h0, rfl⟩ := h
  obtain ⟨hm, ha⟩ := mem_searchJoinRows (List.mem_dedup.mp h0)
  exact ⟨e0, hm, rfl, ha⟩

/-- C6: deleting an active entry through the API leaves the row in storage
with `is_active = false`, and the entry is absent from list results, from
retrieval, and from the results of every subsequent search (all of which
only consider active entries). -/
theorem C6_soft_delete_hides_entry :
    ∀ (s : Store) (id : Nat),
      (∃ e ∈ s.entries, e.id = id ∧ e.is_active = true) →
      ((∃ e ∈ ((destroy_view s id).1).entries, e.id = id ∧ e.is_active = false) ∧
       (∀ e ∈ list_view_entries (destroy_view s id).1, e.id ≠ id) ∧
       retrieve_view (destroy_view s id).1 id = none ∧
       (∀ (q : String) (f : Option SearchFilters),
         ∀ e ∈ (SearchService.search_entries (destroy_view s id).1 q f).2, e.id ≠ id)) := by
  intro s id hex
  obtain ⟨e, he, heid, hact⟩ := hex
  have hf : ((s.entries.filter (fun x => x.is_active)).find? (fun x => x.id == id)).isSome := by
    rw [List.find?_isSome]
    exact ⟨e, List.mem_filter.mpr ⟨he, hact⟩, by simp [heid]⟩
  cases hfind : (s.entries.filter (fun x => x.is_active)).find? (fun x => x.id == id) with
  | none => rw [hfind] at hf; simp at hf
  | some e1 =>
    have hdv : (destroy_view s id).1 = { s with entries := s.entries.map (fun x => if x.id == id then { x with is_active := false } else x) } := by
      simp [destroy_view, hfind, perform_destroy]
    rw [hdv]
    have hkey : ∀ x ∈ s.entries.map (fun x => if x.id == id then { x with is_active := false } else x), x.is_active = true → x.id ≠ id := by
      intro x hx hxa hxid
      obtain ⟨y, hy, hxy⟩ := List.mem_map.mp hx
      by_cases hyid : y.id == id
      · rw [if_pos hyid] at hxy
        subst hxy
        simp at hxa
      · rw [if_neg hyid] at hxy
        subst hxy
        exact hyid (by simp [hxid])
    refine ⟨?_, ?_, ?_, ?_⟩
    · refine ⟨{ e with is_active := false }, List.mem_map.mpr ⟨e, he, ?_⟩, by simp [heid], rfl⟩
      rw [if_pos (by simp [heid])]
    · intro x hx
      have := List.mem_filter.mp hx
      exact hkey x this.1 this.2
    · rw [retrieve_view, List.find?_eq_none]
      intro x hx
      have := List.mem_filter.mp hx
      have hne := hkey x this.1 this.2
      simp [hne]
    · intro q f x hx
      obtain ⟨e0, hm, hid, ha0⟩ := mem_search_results hx
      rw [hid]
      exact hkey e0 hm ha0

/-- Witness for C6 at a concrete store: entry 0 is active beforehand; after
the delete it is stored inactive and invisible to list, retrieve and
search. -/
theorem C6_witness :
    (∃ e ∈ c6Store.entries, e.id = 0 ∧ e.is_active = true) ∧
    ((∃ e ∈ ((destroy_view c6Store 0).1).entries, e.id = 0 ∧ e.is_active = false) ∧
     (∀ e ∈ list_view_entries (destroy_view c6Store 0).1, e.id ≠ 0) ∧
     retrieve_view (destroy_view c6Store 0).1 0 = none ∧
     (∀ (q : String) (f : Option SearchFilters),
       ∀ e ∈ (SearchService.search_entries (destroy_view c6Store 0).1 q f).2, e.id ≠ 0)) :=
  ⟨by decide, C6_soft_delete_hides_entry c6Store 0 (by decide)⟩

/-- C8: the result set of every search is free of duplicate entry
identities (under the primary-key invariant that stored entry ids are
unique), even when several child example rows of one entry match. -/
theorem C8_search_results_no_duplicates :
    ∀ (s : Store) (q : String) (f : Option SearchFilters),
      (s.entries.map (fun e => e.id)).Nodup →
      (((SearchService.search_entries s q f).2).map (fun e => e.id)).Nodup := by
  intro s q f hn
  simp only [SearchService.search_entries]
  rw [List.map_map]
  show (((searchJoinRows s q f).dedup).map (fun e => e.id)).Nodup
  refine List.Nodup.map_on ?_ (List.nodup_dedup _)
  intro x hx y hy hxy
  have hx' := (mem_searchJoinRows (List.mem_dedup.mp hx)).1
  have hy' := (mem_searchJoinRows (List.mem_dedup.mp hy)).1
  exact List.inj_on_of_nodup_map hn hx' hy' hxy

/-- Witness for C8: in `c8Store` both child examples of entry 0 match
`"ubuntu"`, so the join yields two rows, yet the returned result list holds
the entry once, with no duplicate ids. -/
theorem C8_witness :
    (searchJoinRows c8Store "ubuntu" none).length = 2 ∧
    ((SearchService.search_entries c8Store "ubuntu" none).2).length = 1 ∧
    (c8Store.entries.map (fun e => e.id)).Nodup ∧
    (((SearchService.search_entries c8Store "ubuntu" none).2).map (fun e => e.id)).Nodup :=
  ⟨by decide, by decide, by decide,
   C8_search_results_no_duplicates c8Store "ubuntu" none (by decide)⟩

/-! Claim theorems: frequency counters. -/

/-- The bulk-update row function preserves primary keys. -/
theorem bumpFrequency_id (res : List CulturalEntry) (e : CulturalEntry) :
    (bumpFrequency res e).id = e.id := by
  unfold bumpFrequency
  cases res.find? (fun r => r.id == e.id) <;> rfl

theorem bumpFrequency_eq (res : List CulturalEntry) (e : CulturalEntry) :
    ∃ v : Int, bumpFrequency res e = { e with frequency := v } := by
  unfold bumpFrequency
  cases res.find? (fun r => r.id == e.id) with
  | none => exact ⟨e.frequency, rfl⟩
  | some r => exact ⟨r.frequency + 1, rfl⟩

theorem find?_map_id_pres {l : List CulturalEntry} {g : CulturalEntry → CulturalEntry}
    (hg : ∀ e, (g e).id = e.id) (id : Nat) :
    (l.map g).find? (fun e => e.id == id) = (l.find? (fun e => e.id == id)).map g := by
  induction l with
  | nil => rfl
  | cons a t ih =>
    simp only [List.map_cons, List.find?_cons]
    rw [hg a]
    by_cases h : (a.id == id) = true
    · simp [h]
    · simp only [Bool.not_eq_true] at h
      simp [h, ih]

theorem entryMatchesSearch_frequency_blind (s s' : Store) (hex : s'.examples = s.examples)
    (e : CulturalEntry) (v : Int) (q : String) (f : Option SearchFilters) :
    entryMatchesSearch s' { e with frequency := v } q f = entryMatchesSearch s e q f := by
  simp [entryMatchesSearch, entryFieldsMatch, applyFilters, hex]

theorem leftJoinExamples_ne_nil (s : Store) (e : CulturalEntry) :
    leftJoinExamples s e ≠ [] := by
  unfold leftJoinExamples
  cases h : s.examples.filter (fun ex => ex.entry_id == e.id) with
  | nil => simp
  | cons a t => simp

theorem exists_row_iff_entryMatches (s : Store) (e : CulturalEntry) (q : String)
    (f : Option SearchFilters) :
    (∃ ex ∈ leftJoinExamples s e, searchRowKeep e ex q f = true) ↔
      entryMatchesSearch s e q f = true := by
  constructor
  · rintro ⟨ex, hmem, hkeep⟩
    simp only [searchRowKeep, Bool.and_eq_true] at hkeep
    obtain ⟨⟨ha, ht⟩, hf⟩ := hkeep
    simp only [entryMatchesSearch, Bool.and_eq_true]
    refine ⟨⟨ha, ?_⟩, hf⟩
    by_cases hq : (q == "") = true
    · simp [hq]
    · simp only [Bool.not_eq_true] at hq
      rw [if_neg (by simp [hq])] at ht ⊢
      rcases Bool.or_eq_true .. |>.mp ht with hefm | hx
      · simp [hefm]
      · cases ex with
        | none => simp at hx
        | some x =>
          have hxmem : x ∈ s.examples.filter (fun ex => ex.entry_id == e.id) := by
            unfold leftJoinExamples at hmem
            cases hfe : s.examples.filter (fun ex => ex.entry_id == e.id) with
            | nil => rw [hfe] at hmem; simp at hmem
            | cons a t =>
              rw [hfe] at hmem
              obtain ⟨y, hy, hye⟩ := List.mem_map.mp hmem
              injection hye with hye
              exact hye ▸ hy
          have hmf := List.mem_filter.mp hxmem
          have hx2 : exampleMatch x q = true := by simpa using hx
          refine Bool.or_eq_true .. |>.mpr (Or.inr ?_)
          rw [List.any_eq_true]
          exact ⟨x, hmf.1, by rw [Bool.and_eq_true]; exact ⟨hmf.2, hx2⟩⟩
  · intro hm
    simp only [entryMatchesSearch, Bool.and_eq_true] at hm
    obtain ⟨⟨ha, ht⟩, hf⟩ := hm
    by_cases hq : (q == "") = true
    · obtain ⟨ex, hex⟩ := List.exists_mem_of_ne_nil _ (leftJoinExamples_ne_nil s e)
      exact ⟨ex, hex, by simp [searchRowKeep, ha, hf, hq]⟩
    · simp only [Bool.not_eq_true] at hq
      rw [if_neg (by simp [hq])] at ht
      rcases Bool.or_eq_true .. |>.mp ht with hefm | hx
      · obtain ⟨ex, hex⟩ := List.exists_mem_of_ne_nil _ (leftJoinExamples_ne_nil s e)
        refine ⟨ex, hex, ?_⟩
        simp [searchRowKeep, ha, hf, hq, hefm]
      · rw [List.any_eq_true] at hx
        obtain ⟨x, hxm, hxc⟩ := hx
        simp only [Bool.and_eq_true] at hxc
        have hxf : x ∈ s.examples.filter (fun ex => ex.entry_id == e.id) :=
          List.mem_filter.mpr ⟨hxm, hxc.1⟩
        refine ⟨some x, ?_, ?_⟩
        · unfold leftJoinExamples
          cases hfe : s.examples.filter (fun ex => ex.entry_id == e.id) with
          | nil => rw [hfe] at hxf; cases hxf
          | cons a t =>
            rw [hfe] at hxf
            exact List.mem_map.mpr ⟨x, hxf, rfl⟩
        · simp [searchRowKeep, ha, hf, hq, hxc.2]

theorem mem_searchJoinRows_iff {s : Store} {q : String} {f : Option SearchFilters}
    {e : CulturalEntry} :
    e ∈ searchJoinRows s q f ↔ e ∈ s.entries ∧ entryMatchesSearch s e q f = true := by
  simp only [searchJoinRows, List.mem_flatMap, List.mem_filterMap]
  constructor
  · rintro ⟨e0, he0, ex, hex, hif⟩
    by_cases hk : searchRowKeep e0 ex q f
    · rw [if_pos hk] at hif
      injection hif with hif
      subst hif
      exact ⟨he0, (exists_row_iff_entryMatches _ _ _ _).mp ⟨ex, hex, hk⟩⟩
    · rw [if_neg hk] at hif
      cases hif
  · rintro ⟨he, hm⟩
    obtain ⟨ex, hex, hk⟩ := (exists_row_iff_entryMatches s e q f).mpr hm
    exact ⟨e, he, ex, hex, by rw [if_pos hk]⟩

theorem search_entries_snd (s : Store) (q : String) (f : Option SearchFilters) :
    (SearchService.search_entries s q f).2 =
      (List.dedup (searchJoinRows s q f)).map
        (fun e => { e with frequency := e.frequency + 1 }) := rfl

theorem mem_searchResultIds {s : Store} {q : String} {f : Option SearchFilters} {id : Nat} :
    id ∈ searchResultIds s q f ↔
      ∃ e ∈ s.entries, e.id = id ∧ entryMatchesSearch s e q f = true := by
  rw [searchResultIds, search_entries_snd, List.map_map]
  constructor
  · intro h
    obtain ⟨e, he, hid⟩ := List.mem_map.mp h
    have h2 := mem_searchJoinRows_iff.mp (List.mem_dedup.mp he)
    exact ⟨e, h2.1, by simpa using hid, h2.2⟩
  · rintro ⟨e, he, hid, hm⟩
    refine List.mem_map.mpr ⟨e, List.mem_dedup.mpr (mem_searchJoinRows_iff.mpr ⟨he, hm⟩), ?_⟩
    simpa using hid

theorem search_entries_fst_entries (s : Store) (q : String) (f : Option SearchFilters) :
    ((SearchService.search_entries s q f).1).entries =
      s.entries.map (bumpFrequency (List.dedup (searchJoinRows s q f))) := rfl

theorem search_entries_fst_examples (s : Store) (q : String) (f : Option SearchFilters) :
    ((SearchService.search_entries s q f).1).examples = s.examples := rfl

theorem getFrequency_search_step (s : Store) (q : String) (f : Option SearchFilters)
    (hn : (s.entries.map (fun e => e.id)).Nodup) (id : Nat) :
    getFrequency (SearchService.search_entries s q f).1 id =
      (if id ∈ searchResultIds s q f then (getFrequency s id).map (fun v => v + 1)
       else getFrequency s id) := by
  rw [getFrequency, search_entries_fst_entries,
    find?_map_id_pres (bumpFrequency_id (List.dedup (searchJoinRows s q f))) id]
  cases hfe : s.entries.find? (fun e => e.id == id) with
  | none =>
    have hnm : id ∉ searchResultIds s q f := by
      rw [mem_searchResultIds]
      rintro ⟨e, he, rfl, -⟩
      have := List.find?_eq_none.mp hfe e he
      simp at this
    rw [if_neg hnm]
    simp [getFrequency, hfe]
  | some e =>
    have heid : e.id = id := by simpa using List.find?_some hfe
    have hemem : e ∈ s.entries := List.mem_of_find?_eq_some hfe
    rw [getFrequency, hfe]
    simp only [Option.map_some']
    cases hr : (List.dedup (searchJoinRows s q f)).find? (fun r => r.id == e.id) with
    | none =>
      have hnm : id ∉ searchResultIds s q f := by
        rw [mem_searchResultIds]
        rintro ⟨e1, he1, hide1, hm1⟩
        have hmem1 : e1 ∈ List.dedup (searchJoinRows s q f) :=
          List.mem_dedup.mpr (mem_searchJoinRows_iff.mpr ⟨he1, hm1⟩)
        have := List.find?_eq_none.mp hr e1 hmem1
        simp [hide1, heid] at this
      rw [if_neg hnm]
      simp [bumpFrequency, hr]
    | some r =>
      have hrid : r.id = e.id := by simpa using List.find?_some hr
      have hrmem : r ∈ s.entries :=
        (mem_searchJoinRows (List.mem_dedup.mp (List.mem_of_find?_eq_some hr))).1
      have hre : r = e := List.inj_on_of_nodup_map hn hrmem hemem hrid
      have hmm : id ∈ searchResultIds s q f := by
        rw [mem_searchResultIds]
        have hjr := mem_searchJoinRows_iff.mp (List.mem_dedup.mp (List.mem_of_find?_eq_some hr))
        exact ⟨r, hjr.1, by rw [hrid, heid], hjr.2⟩
      rw [if_pos hmm]
      simp [bumpFrequency, hr, hre]

theorem searchResultIds_step (s : Store) (q : String) (f : Option SearchFilters) (id : Nat) :
    (id ∈ searchResultIds (SearchService.search_entries s q f).1 q f) ↔
      id ∈ searchResultIds s q f := by
  rw [mem_searchResultIds, mem_searchResultIds]
  constructor
  · rintro ⟨e', he', hid, hm⟩
    rw [search_entries_fst_entries] at he'
    obtain ⟨e0, he0, rfl⟩ := List.mem_map.mp he'
    obtain ⟨v, hv⟩ := bumpFrequency_eq (List.dedup (searchJoinRows s q f)) e0
    rw [hv] at hid hm
    rw [entryMatchesSearch_frequency_blind s (SearchService.search_entries s q f).1
      (search_entries_fst_examples s q f) e0 v q f] at hm
    exact ⟨e0, he0, by simpa using hid, hm⟩
  · rintro ⟨e, he, hid, hm⟩
    refine ⟨bumpFrequency (List.dedup (searchJoinRows s q f)) e, ?_, ?_, ?_⟩
    · rw [search_entries_fst_entries]
      exact List.mem_map.mpr ⟨e, he, rfl⟩
    · rw [bumpFrequency_id]
      exact hid
    · obtain ⟨v, hv⟩ := bumpFrequency_eq (List.dedup (searchJoinRows s q f)) e
      rw [hv, entryMatchesSearch_frequency_blind s (SearchService.search_entries s q f).1
        (search_entries_fst_examples s q f) e v q f]
      exact hm

theorem search_step_ids_eq (s : Store) (q : String) (f : Option SearchFilters) :
    ((SearchService.search_entries s q f).1).entries.map (fun e => e.id) =
      s.entries.map (fun e => e.id) := by
  rw [search_entries_fst_entries, List.map_map]
  have hfun : ((fun e : CulturalEntry => e.id) ∘
      bumpFrequency (List.dedup (searchJoinRows s q f))) = fun e : CulturalEntry => e.id :=
    funext (fun e => bumpFrequency_id _ e)
  rw [hfun]

theorem getFrequency_searchN (q : String) (f : Option SearchFilters) :
    ∀ (n : Nat) (s : Store) (id : Nat),
      (s.entries.map (fun e => e.id)).Nodup →
      id ∈ searchResultIds s q f →
      getFrequency (searchN s q f n) id = (getFrequency s id).map (fun v => v + (n : Int)) := by
  intro n
  induction n with
  | zero =>
    intro s id hn hm
    simp only [searchN]
    cases getFrequency s id <;> simp
  | succ k ih =>
    intro s id hn hm
    have hn' : (((SearchService.search_entries s q f).1).entries.map (fun e => e.id)).Nodup := by
      rw [search_step_ids_eq]
      exact hn
    have hm' : id ∈ searchResultIds (SearchService.search_entries s q f).1 q f :=
      (searchResultIds_step s q f id).mpr hm
    simp only [searchN]
    rw [ih _ id hn' hm', getFrequency_search_step s q f hn id, if_pos hm]
    cases getFrequency s id with
    | none => simp
    | some v =>
      simp only [Option.map_some']
      congr 1
      omega

theorem getFrequency_map_invariant {s' s : Store} {g : CulturalEntry → CulturalEntry}
    (he : s'.entries = s.entries.map g) (hid : ∀ e, (g e).id = e.id)
    (hfr : ∀ e, (g e).frequency = e.frequency) (id : Nat) :
    getFrequency s' id = getFrequency s id := by
  rw [getFrequency, he, find?_map_id_pres hid id, getFrequency]
  cases s.entries.find? (fun e => e.id == id) <;> simp [hfr]

theorem getFrequency_append {s' s : Store} {more : List CulturalEntry}
    (he : s'.entries = s.entries ++ more) {id : Nat} {v : Int}
    (h : getFrequency s id = some v) : getFrequency s' id = some v := by
  rw [getFrequency, he, List.find?_append]
  rw [getFrequency] at h
  cases hf : s.entries.find? (fun e => e.id == id) with
  | none => rw [hf] at h; cases h
  | some e => rw [hf] at h; simpa using h

theorem createExamples_entries (exs : List ExamplePayload) :
    ∀ (s : Store) (id : Nat), (createExamples s id exs).entries = s.entries := by
  induction exs with
  | nil => intro s id; rfl
  | cons x t ih =>
    intro s id
    simp only [createExamples, List.foldl_cons] at ih ⊢
    rw [ih]

theorem createTranslations_entries (ts : List TranslationPayload) :
    ∀ (s : Store) (id : Nat), (createTranslations s id ts).entries = s.entries := by
  induction ts with
  | nil => intro s id; rfl
  | cons x t ih =>
    intro s id
    simp only [createTranslations, List.foldl_cons] at ih ⊢
    rw [ih]

/-- C5: every search persists, in the one batch update, frequency `old + 1`
for exactly the returned entries (others untouched); repeating the same
search `n` times raises each matched entry's frequency by exactly `n`; and
no public operation ever decreases a stored entry's frequency — all under
the primary-key invariant that stored entry ids are unique. -/
theorem C5_search_frequency_increment :
    (∀ (s : Store) (q : String) (f : Option SearchFilters) (id : Nat),
      (s.entries.map (fun e => e.id)).Nodup →
      getFrequency (SearchService.search_entries s q f).1 id =
        (if id ∈ searchResultIds s q f then (getFrequency s id).map (fun v => v + 1)
         else getFrequency s id)) ∧
    (∀ (s : Store) (q : String) (f : Option SearchFilters) (n : Nat) (id : Nat),
      (s.entries.map (fun e => e.id)).Nodup →
      id ∈ searchResultIds s q f →
      getFrequency (searchN s q f n) id = (getFrequency s id).map (fun v => v + (n : Int))) ∧
    (∀ (s : Store) (op : Operation) (id : Nat) (v : Int),
      (s.entries.map (fun e => e.id)).Nodup →
      getFrequency s id = some v →
      ∃ v', getFrequency (applyOp s op) id = some v' ∧ v ≤ v') := by
  refine ⟨?_, ?_, ?_⟩
  · intro s q f id hn
    exact getFrequency_search_step s q f hn id
  · intro s q f n id hn hm
    exact getFrequency_searchN q f n s id hn hm
  · intro s op id v hn hv
    cases op with
    | searchOp q pos gen lang =>
      simp only [applyOp]
      rw [getFrequency_search_step s q (some ⟨pos, gen, lang, q⟩) hn id]
      by_cases hm : id ∈ searchResultIds s q (some ⟨pos, gen, lang, q⟩)
      · rw [if_pos hm, hv]
        exact ⟨v + 1, rfl, by omega⟩
      · rw [if_neg hm, hv]
        exact ⟨v, rfl, le_refl v⟩
    | importOp payload user =>
      simp only [applyOp]
      cases payload with
      | jarr json =>
        simp only [import_data_view, DataImportService.importAtomic,
          DataImportService.import_from_json]
        cases hl : DataImportService.importLoop s 0 json with
        | error e => exact ⟨v, hv, le_refl v⟩
        | ok p =>
          obtain ⟨s1, c⟩ := p
          obtain ⟨⟨newEs, hen, -, -⟩, -, -, -, -, -⟩ := importLoop_ok json s 0 hl
          have happ : (ActivityLogService.log_activity s1 user "import"
              ("Imported " ++ toString c ++ " entries from JSON") none).entries =
              s.entries ++ newEs := by
            simpa [ActivityLogService.log_activity] using hen
          exact ⟨v, getFrequency_append happ hv, le_refl v⟩
      | jobj fs => exact ⟨v, hv, le_refl v⟩
      | jstr x => exact ⟨v, hv, le_refl v⟩
      | jint x => exact ⟨v, hv, le_refl v⟩
      | jbool x => exact ⟨v, hv, le_refl v⟩
      | jnull => exact ⟨v, hv, le_refl v⟩
    | createOp p =>
      simp only [applyOp]
      have happ : ((create_view s p).1).entries = s.entries ++ [⟨s.nextId, p.isiZulu_text, p.english_translation, p.part_of_speech, p.genre, p.cultural_context, p.source, 0, p.is_active⟩] := by
        simp [create_view, createExamples_entries, createTranslations_entries]
      exact ⟨v, getFrequency_append happ hv, le_refl v⟩
    | updateOp id0 p =>
      simp only [applyOp]
      cases hfind : (s.entries.filter (fun e => e.is_active)).find? (fun e => e.id == id0) with
      | none =>
        simp only [update_view, hfind]
        exact ⟨v, hv, le_refl v⟩
      | some e1 =>
        have hent : ((update_view s id0 p).1).entries =
            s.entries.map (fun e => if e.id == id0 then patchEntry e p else e) := by
          cases hpe : p.examples <;> cases hpt : p.additional_translations <;>
            simp [update_view, hfind, hpe, hpt, createExamples_entries,
              createTranslations_entries]
        refine ⟨v, ?_, le_refl v⟩
        rw [getFrequency_map_invariant hent ?_ ?_ id]
        · exact hv
        · intro e
          by_cases h : (e.id == id0) = true <;> simp [h, patchEntry]
        · intro e
          by_cases h : (e.id == id0) = true <;> simp [h, patchEntry]
    | destroyOp id0 =>
      simp only [applyOp]
      cases hfind : (s.entries.filter (fun e => e.is_active)).find? (fun e => e.id == id0) with
      | none =>
        simp only [destroy_view, hfind]
        exact ⟨v, hv, le_refl v⟩
      | some e1 =>
        have hent : ((destroy_view s id0).1).entries =
            s.entries.map (fun e => if e.id == id0 then { e with is_active := false } else e) := by
          simp [destroy_view, hfind, perform_destroy]
        refine ⟨v, ?_, le_refl v⟩
        rw [getFrequency_map_invariant hent ?_ ?_ id]
        · exact hv
        · intro e
          by_cases h : (e.id == id0) = true <;> simp [h]
        · intro e
          by_cases h : (e.id == id0) = true <;> simp [h]
    | exportOp =>
      exact ⟨v, hv, le_refl v⟩

/-- Witness for C5 on a concrete store: entry 0 (frequency 5) matches
`"ubuntu"`; one search persists 6, two searches persist 7, and a soft delete
does not decrease the counter. -/
theorem C5_witness :
    (getFrequency (SearchService.search_entries c5Store "ubuntu" none).1 0 = some 6) ∧
    (getFrequency (searchN c5Store "ubuntu" none 2) 0 = some 7) ∧
    (∃ v', getFrequency (applyOp c5Store (.destroyOp 0)) 0 = some v' ∧ 5 ≤ v') :=
  ⟨(C5_search_frequency_increment.1 c5Store "ubuntu" none 0 (by decide)).trans (by decide),
   (C5_search_frequency_increment.2.1 c5Store "ubuntu" none 2 0 (by decide) (by decide)).trans
     (by decide),
   C5_search_frequency_increment.2.2 c5Store (.destroyOp 0) 0 5 (by decide) (by decide)⟩

/-! Claim theorems: word-frequency analytics. -/

/-- One `Counter` update step, expressed on the tail of the token stream. -/
theorem counter_append_singleton (ws : List String) (w : String) :
    counter (ws ++ [w]) = counterInsert (counter ws) w := by
  simp [counter, List.foldl_append]

/-- The counter holds exactly one pair per distinct token, whose count is the
token's number of occurrences, with keys in first-encounter order. -/
theorem counter_spec (ws : List String) :
    (∀ p ∈ counter ws, p.2 = ws.count p.1) ∧
    (∀ w : String, (∃ p ∈ counter ws, p.1 = w) ↔ w ∈ ws) ∧
    ((counter ws).map Prod.fst).Nodup := by
  induction ws using List.reverseRecOn with
  | nil => simp [counter]
  | append_singleton ws w ih =>
    obtain ⟨hc, hk, hn⟩ := ih
    rw [counter_append_singleton]
    unfold counterInsert
    by_cases hin : (counter ws).any (fun p => p.1 == w) = true
    · rw [if_pos hin]
      refine ⟨?_, ?_, ?_⟩
      · intro p hp
        obtain ⟨p0, hp0, hpe⟩ := List.mem_map.mp hp
        by_cases hw : (p0.1 == w) = true
        · rw [if_pos hw] at hpe
          subst hpe
          have hweq : p0.1 = w := by simpa using hw
          rw [List.count_append]
          simp [List.count_cons, hc p0 hp0, hweq]
        · rw [if_neg hw] at hpe
          subst hpe
          have hwp : (w == p0.1) = false := by
            rw [beq_eq_false_iff_ne]
            intro hcon
            exact hw (by simp [hcon])
          rw [List.count_append]
          simp [List.count_cons, hc p0 hp0, hwp]
      · intro x
        constructor
        · rintro ⟨p, hp, rfl⟩
          obtain ⟨p0, hp0, hpe⟩ := List.mem_map.mp hp
          have hk0 : p.1 = p0.1 := by
            by_cases hw : (p0.1 == w) = true
            · rw [if_pos hw] at hpe; subst hpe; rfl
            · rw [if_neg hw] at hpe; subst hpe; rfl
          rw [List.mem_append]
          exact Or.inl ((hk p.1).mp ⟨p0, hp0, hk0.symm⟩)
        · intro hx
          rcases List.mem_append.mp hx with hx | hx
          · obtain ⟨p0, hp0, hke⟩ := (hk x).mpr hx
            refine ⟨(if p0.1 == w then (p0.1, p0.2 + 1) else p0),
              List.mem_map.mpr ⟨p0, hp0, rfl⟩, ?_⟩
            by_cases hw : (p0.1 == w) = true
            · rw [if_pos hw]; exact hke
            · rw [if_neg hw]; exact hke
          · have hxw : x = w := by simpa using hx
            rw [List.any_eq_true] at hin
            obtain ⟨p0, hp0, hpw⟩ := hin
            refine ⟨(p0.1, p0.2 + 1), List.mem_map.mpr ⟨p0, hp0, by rw [if_pos hpw]⟩, ?_⟩
            rw [hxw]
            simpa using hpw
      · have hmm : ((counter ws).map (fun p => if p.1 == w then (p.1, p.2 + 1) else p)).map
            Prod.fst = (counter ws).map Prod.fst := by
          rw [List.map_map]
          apply List.map_congr_left
          intro p hp
          by_cases hw : (p.1 == w) = true
          · rw [Function.comp_apply, if_pos hw]
          · rw [Function.comp_apply, if_neg hw]
        rw [hmm]
        exact hn
    · rw [if_neg hin]
      have hwnot : w ∉ ws := by
        intro hcon
        obtain ⟨p0, hp0, hke⟩ := (hk w).mpr hcon
        exact hin (List.any_eq_true.mpr ⟨p0, hp0, by simp [hke]⟩)
      refine ⟨?_, ?_, ?_⟩
      · intro p hp
        rcases List.mem_append.mp hp with hp | hp
        · have hne : p.1 ≠ w := by
            intro hcon
            exact hin (List.any_eq_true.mpr ⟨p, hp, by simp [hcon]⟩)
          have hwp : (w == p.1) = false := by
            rw [beq_eq_false_iff_ne]
            intro hcon
            exact hne hcon.symm
          rw [List.count_append]
          simp [List.count_cons, hc p hp, hwp]
        · have hpv : p = (w, 1) := by simpa using hp
          subst hpv
          rw [List.count_append]
          simp [List.count_cons, List.count_eq_zero.mpr hwnot]
      · intro x
        constructor
        · rintro ⟨p, hp, rfl⟩
          rcases List.mem_append.mp hp with hp | hp
          · exact List.mem_append.mpr (Or.inl ((hk p.1).mp ⟨p, hp, rfl⟩))
          · have hpv : p = (w, 1) := by simpa using hp
            rw [hpv]
            simp
        · intro hx
          rcases List.mem_append.mp hx with hx | hx
          · obtain ⟨p0, hp0, hke⟩ := (hk x).mpr hx
            exact ⟨p0, List.mem_append.mpr (Or.inl hp0), hke⟩
          · have hxw : x = w := by simpa using hx
            exact ⟨(w, 1), List.mem_append.mpr (Or.inr (by simp)), hxw.symm⟩
      · rw [List.map_append]
        simp only [List.map_cons, List.map_nil]
        rw [List.nodup_append]
        refine ⟨hn, List.nodup_singleton w, ?_⟩
        intro x hx hxw
        have hxw2 : x = w := by simpa using hxw
        obtain ⟨p0, hp0, hke⟩ := List.mem_map.mp hx
        refine hin (List.any_eq_true.mpr ⟨p0, hp0, ?_⟩)
        rw [hke, hxw2]
        simp

/-- Stable insertion only rearranges. -/
theorem insertByCountDesc_perm (p : String × Nat) (l : List (String × Nat)) :
    (insertByCountDesc p l).Perm (p :: l) := by
  induction l with
  | nil => exact List.Perm.refl _
  | cons q rest ih =>
    rw [insertByCountDesc]
    by_cases h : p.2 ≤ q.2
    · rw [if_pos h]
      exact ((ih.cons q).trans (List.Perm.swap p q rest)).symm.symm
    · rw [if_neg h]

/-- Stable insertion preserves the count-descending order. -/
theorem insertByCountDesc_sorted {l : List (String × Nat)} (p : String × Nat)
    (h : List.Pairwise (fun a b => b.2 ≤ a.2) l) :
    List.Pairwise (fun a b => b.2 ≤ a.2) (insertByCountDesc p l) := by
  induction l with
  | nil => simp [insertByCountDesc]
  | cons q rest ih =>
    rw [insertByCountDesc]
    rw [List.pairwise_cons] at h
    obtain ⟨hq, hrest⟩ := h
    by_cases hle : p.2 ≤ q.2
    · rw [if_pos hle]
      rw [List.pairwise_cons]
      refine ⟨?_, ih hrest⟩
      intro a ha
      have := (insertByCountDesc_perm p rest).mem_iff.mp ha
      rcases List.mem_cons.mp this with rfl | hmem
      · exact hle
      · exact hq a hmem
    · rw [if_neg hle]
      rw [List.pairwise_cons]
      refine ⟨?_, List.pairwise_cons.mpr ⟨hq, hrest⟩⟩
      intro a ha
      rcases List.mem_cons.mp ha with rfl | hmem
      · omega
      · exact le_trans (hq a hmem) (by omega)

/-- Stability of the insertion: within one count value, the inserted pair
lands after every pair already present. -/
theorem insertByCountDesc_filter {l : List (String × Nat)} (p : String × Nat) (c : Nat)
    (h : List.Pairwise (fun a b => b.2 ≤ a.2) l) :
    (insertByCountDesc p l).filter (fun q => q.2 == c) =
      (if p.2 == c then l.filter (fun q => q.2 == c) ++ [p]
       else l.filter (fun q => q.2 == c)) := by
  induction l with
  | nil =>
    simp only [insertByCountDesc, List.filter]
    by_cases hc : (p.2 == c) = true
    · rw [if_pos hc]
      simp [hc]
    · rw [if_neg hc]
      simp [hc]
  | cons q rest ih =>
    rw [List.pairwise_cons] at h
    obtain ⟨hq, hrest⟩ := h
    rw [insertByCountDesc]
    by_cases hle : p.2 ≤ q.2
    · rw [if_pos hle]
      rw [List.filter_cons, List.filter_cons]
      by_cases hqc : (q.2 == c) = true
      · rw [if_pos hqc, if_pos hqc, ih hrest]
        by_cases hpc : (p.2 == c) = true
        · rw [if_pos hpc, if_pos hpc]
          simp
        · rw [if_neg hpc, if_neg hpc]
      · rw [if_neg hqc, if_neg hqc, ih hrest]
    · rw [if_neg hle]
      rw [List.filter_cons]
      by_cases hpc : (p.2 == c) = true
      · rw [if_pos hpc, if_pos hpc]
        have hpceq : p.2 = c := by simpa using hpc
        have hall : (q :: rest).filter (fun x => x.2 == c) = [] := by
          rw [List.filter_eq_nil_iff]
          intro x hx
          have hxle : x.2 ≤ q.2 := by
            rcases List.mem_cons.mp hx with rfl | hmem
            · exact le_refl _
            · exact hq x hmem
          have : x.2 < c := by omega
          simp only [beq_iff_eq]
          omega
        rw [hall]
        simp
      · rw [if_neg hpc, if_neg hpc]

/-- Invariants of the insertion-sort fold: sortedness, permutation and
per-count stability. -/
theorem sortFold_spec :
    ∀ (l acc : List (String × Nat)),
      List.Pairwise (fun a b => b.2 ≤ a.2) acc →
      (List.Pairwise (fun a b => b.2 ≤ a.2)
        (l.foldl (fun a p => insertByCountDesc p a) acc)) ∧
      ((l.foldl (fun a p => insertByCountDesc p a) acc).Perm (acc ++ l)) ∧
      (∀ c, (l.foldl (fun a p => insertByCountDesc p a) acc).filter (fun q => q.2 == c) =
        acc.filter (fun q => q.2 == c) ++ l.filter (fun q => q.2 == c)) := by
  intro l
  induction l with
  | nil =>
    intro acc h
    exact ⟨h, by simp, by simp⟩
  | cons p t ih =>
    intro acc h
    rw [List.foldl_cons]
    obtain ⟨hs, hp, hf⟩ := ih (insertByCountDesc p acc) (insertByCountDesc_sorted p h)
    refine ⟨hs, ?_, ?_⟩
    · refine hp.trans ?_
      refine (((insertByCountDesc_perm p acc).append_right t).trans ?_)
      exact List.perm_middle.symm
    · intro c
      rw [hf c, insertByCountDesc_filter p c h, List.filter_cons]
      by_cases hpc : (p.2 == c) = true
      · rw [if_pos hpc, if_pos hpc]
        simp
      · rw [if_neg hpc, if_neg hpc]

/-- The ordering `most_common` applies is count-descending. -/
theorem sortByCountDesc_sorted (l : List (String × Nat)) :
    List.Pairwise (fun a b => b.2 ≤ a.2) (sortByCountDesc l) :=
  (sortFold_spec l [] (by simp)).1

/-- The ordering only rearranges the counter items. -/
theorem sortByCountDesc_perm (l : List (String × Nat)) :
    (sortByCountDesc l).Perm l := by
  have := (sortFold_spec l [] (by simp)).2.1
  simpa using this

/-- Stability of the ordering: pairs of equal count stay in the counter's
first-encounter order. -/
theorem sortByCountDesc_filter (l : List (String × Nat)) (c : Nat) :
    (sortByCountDesc l).filter (fun q => q.2 == c) = l.filter (fun q => q.2 == c) := by
  have := (sortFold_spec l [] (by simp)).2.2 c
  simpa using this

/-- C9: `word_frequency` lower-cases and tokenizes the concatenated active
source texts into word runs, counts occurrences, and returns at most `limit`
pairs as a mapping (no duplicate words) in descending-count order, with
equal counts kept in first-encountered order; on the concrete corpus where
`Ubuntu` occurs 3 times and all other words at most twice,
`word_frequency(1)` is exactly the mapping `ubuntu -> 3`. -/
theorem C9_word_frequency_spec :
    (AnalyticsService.get_word_frequency c9Store 1 = [("ubuntu", 3)]) ∧
    (∀ (s : Store) (limit : Nat),
      List.Pairwise (fun a b => b.2 ≤ a.2) (AnalyticsService.get_word_frequency s limit) ∧
      (AnalyticsService.get_word_frequency s limit).length ≤ limit ∧
      ((AnalyticsService.get_word_frequency s limit).map Prod.fst).Nodup ∧
      (∀ p ∈ AnalyticsService.get_word_frequency s limit,
        p.2 = (AnalyticsService.words s).count p.1)) ∧
    (∀ (s : Store) (c : Nat),
      (sortByCountDesc (counter (AnalyticsService.words s))).filter (fun q => q.2 == c) =
        (counter (AnalyticsService.words s)).filter (fun q => q.2 == c)) := by
  refine ⟨by decide, ?_, ?_⟩
  · intro s limit
    simp only [AnalyticsService.get_word_frequency]
    refine ⟨?_, ?_, ?_, ?_⟩
    · exact List.Pairwise.sublist (List.take_sublist _ _) (sortByCountDesc_sorted _)
    · simp [List.length_take]
    · have h1 : ((sortByCountDesc (counter (AnalyticsService.words s))).map Prod.fst).Nodup :=
        ((sortByCountDesc_perm _).map Prod.fst).nodup_iff.mpr (counter_spec _).2.2
      exact List.Nodup.sublist ((List.take_sublist _ _).map Prod.fst) h1
    · intro p hp
      have hps : p ∈ sortByCountDesc (counter (AnalyticsService.words s)) :=
        List.take_subset _ _ hp
      exact (counter_spec _).1 p ((sortByCountDesc_perm _).mem_iff.mp hps)
  · intro s c
    exact sortByCountDesc_filter _ c

/-- Witness for C9: instantiates the count-correctness clause at the pair
the concrete corpus returns. -/
theorem C9_witness :
    ("ubuntu", 3) ∈ AnalyticsService.get_word_frequency c9Store 1 ∧
    (3 : Nat) = (AnalyticsService.words c9Store).count "ubuntu" :=
  ⟨by decide, (C9_word_frequency_spec.2.1 c9Store 1).2.2.2 ("ubuntu", 3) (by decide)⟩
